import Mathlib

/-! Task store service (`7-gowebserver/backend/main.go`)

A shallow embedding of the five HTTP handlers of the task service and of the
package-level slice `tasks` they share.  The slice is passed explicitly: a
handler takes the current slice and returns the slice it leaves behind together
with what it wrote to the `http.ResponseWriter`.  Requests are handled one after
another; no interleaving of handlers is modelled.

What comes from the libraries and not from `main.go` is an input of the model:

* the path parameter `mux.Vars(r)["id"]` is the argument `id`;
* the variable `task` after `json.NewDecoder(r.Body).Decode(&task)` is the
  argument `task` (some fields may still hold their zero value);
* every call of `time.Now()` is an argument of type `Time`, and the method
  `time.Time.String` is the argument `timeString`.
-/

namespace TaskStore

/-- An instant (`time.Time`), counted in nanoseconds. -/
abbrev Time := Int

/-- The duration `time.Hour`, in nanoseconds. -/
def Hour : Int := 3600 * 1000000000

/-- The method `Add` of `time.Time`. -/
def Time.Add (t : Time) (d : Int) : Time := t + d

/-- Task represents a todo task. -/
structure Task where
  ID : String
  Title : String
  Completed : Bool
  CreatedAt : Time
  deriving DecidableEq, Repr

/-- The value handed to `json.NewEncoder(w).Encode`: a task, the slice of
tasks, or a `map[string]string` given by its entries. -/
inductive Body where
  | task (item : Task)
  | taskList (items : List Task)
  | object (entries : List (String × String))
  deriving DecidableEq, Repr

/-- What a handler wrote to the `http.ResponseWriter`: the `Content-Type`
header, the status code and the encoded value. -/
structure Response where
  contentType : String
  status : Nat
  body : Body
  deriving DecidableEq, Repr

/-- The status `http.StatusOK`, sent when a handler writes a body without
calling `WriteHeader`. -/
def StatusOK : Nat := 200

/-- The status `http.StatusNotFound`. -/
def StatusNotFound : Nat := 404

/-- The initial value of the package-level slice `tasks`; `now1`, `now2` and
`now3` are the three calls of `time.Now()` in its initialiser. -/
def tasks (now1 now2 now3 : Time) : List Task :=
  [ { ID := "1", Title := "Learn Go", Completed := false,
      CreatedAt := Time.Add now1 (-72 * Hour) },
    { ID := "2", Title := "Learn React", Completed := false,
      CreatedAt := Time.Add now2 (-48 * Hour) },
    { ID := "3", Title := "Build a full-stack app", Completed := false,
      CreatedAt := Time.Add now3 (-24 * Hour) } ]

/-- The loop head shared by `getTask`, `updateTask` and `deleteTask`,
`for index, item := range tasks { if item.ID == params["id"] { ... } }`:
the index and the item at which the body of the `if` runs, if it runs at all.
The first argument is the index of the head of the list still to be scanned. -/
def rangeTasks (id : String) : Nat → List Task → Option (Nat × Task)
  | _, [] => none
  | index, item :: rest =>
    if item.ID = id then some (index, item) else rangeTasks id (index + 1) rest

/-- The response written by a handler that encodes `body` without calling
`WriteHeader`. -/
def respond (body : Body) : Response :=
  { contentType := "application/json", status := StatusOK, body := body }

/-- The last two lines of `getTask` and of `updateTask`:
`w.WriteHeader(http.StatusNotFound)` and the encoded error map. -/
def notFound : Response :=
  { contentType := "application/json", status := StatusNotFound,
    body := Body.object [("error", "Task not found")] }

/-- The response of `deleteTask`. -/
def deleted : Response :=
  respond (Body.object [("message", "Task deleted successfully")])

/-- Handler of `GET /api/tasks`. -/
def getTasks (tasks : List Task) : Response :=
  respond (Body.taskList tasks)

/-- Handler of `GET /api/tasks/{id}`. -/
def getTask (tasks : List Task) (id : String) : Response :=
  match rangeTasks id 0 tasks with
  | some (_, item) => respond (Body.task item)
  | none => notFound

/-- Handler of `POST /api/tasks`.  `task` is the decoded body, `now1` the call
of `time.Now()` that is rendered into the id and `now2` the call that is
stored as `CreatedAt`. -/
def createTask (timeString : Time → String) (now1 now2 : Time)
    (tasks : List Task) (task : Task) : List Task × Response :=
  let task := { task with ID := timeString now1 }
  let task := { task with CreatedAt := now2 }
  (tasks ++ [task], respond (Body.task task))

/-- Handler of `PUT /api/tasks/{id}`.  `task` is the decoded body. -/
def updateTask (tasks : List Task) (id : String) (task : Task) :
    List Task × Response :=
  match rangeTasks id 0 tasks with
  | some (index, item) =>
    let task := { task with ID := id }
    let task := { task with CreatedAt := item.CreatedAt }
    (tasks.set index task, respond (Body.task task))
  | none => (tasks, notFound)

/-- Handler of `DELETE /api/tasks/{id}`: on a match
`tasks = append(tasks[:index], tasks[index+1:]...)`, then `break`. -/
def deleteTask (tasks : List Task) (id : String) : List Task × Response :=
  match rangeTasks id 0 tasks with
  | some (index, _) => (tasks.take index ++ tasks.drop (index + 1), deleted)
  | none => (tasks, deleted)

/-- A request accepted by one of the five routes registered in `main`. -/
inductive Request where
  | getTasks
  | createTask (now1 now2 : Time) (task : Task)
  | getTask (id : String)
  | updateTask (id : String) (task : Task)
  | deleteTask (id : String)
  deriving DecidableEq, Repr

/-- The router of `main`: the handler registered for the request, run on the
current slice. -/
def handle (timeString : Time → String) (tasks : List Task) :
    Request → List Task × Response
  | Request.getTasks => (tasks, getTasks tasks)
  | Request.createTask now1 now2 task => createTask timeString now1 now2 tasks task
  | Request.getTask id => (tasks, getTask tasks id)
  | Request.updateTask id task => updateTask tasks id task
  | Request.deleteTask id => deleteTask tasks id

/-- The slice left behind after the requests are served one after another. -/
def serve (timeString : Time → String) : List Task → List Request → List Task
  | tasks, [] => tasks
  | tasks, r :: rs => serve timeString (handle timeString tasks r).1 rs

/-- Number of `POST /api/tasks` requests in a sequence. -/
def creates : List Request → Nat
  | [] => 0
  | Request.createTask _ _ _ :: rs => creates rs + 1
  | _ :: rs => creates rs

/-- Number of `DELETE /api/tasks/{id}` requests in a sequence. -/
def deletes : List Request → Nat
  | [] => 0
  | Request.deleteTask _ :: rs => deletes rs + 1
  | _ :: rs => deletes rs

/-- Number of `DELETE` requests of a sequence whose id is the id of a task
stored at the moment the request is served, starting from the slice `tasks`. -/
def matchedDeletes (timeString : Time → String) : List Task → List Request → Nat
  | _, [] => 0
  | tasks, r :: rs =>
    matchedDeletes timeString (handle timeString tasks r).1 rs +
      (match r with
       | Request.deleteTask id => if id ∈ tasks.map Task.ID then 1 else 0
       | _ => 0)

/-- A rendering of instants used at concrete inputs: the decimal numeral. -/
def decimal (t : Time) : String := toString t

/-- The zero value of `time.Time` (January 1 of year 1, 00:00 UTC), counted from
the Unix epoch: the `CreatedAt` of a variable `task` whose body names no
`createdAt`. -/
def zeroTime : Time := -62135596800 * 1000000000

/-- The variable `task` after decoding a body that names only `title` and
`completed`. -/
def decoded (title : String) (completed : Bool) : Task :=
  { ID := "", Title := title, Completed := completed, CreatedAt := zeroTime }

/-- A start-up instant used at concrete inputs. -/
def startup : Time := 100 * Hour

/-- The freshly seeded slice of a process started at `startup`. -/
def seeded : List Task := tasks startup startup startup

/-- An instant five nanoseconds after `startup`. -/
def later : Time := startup + 5

/-- Two `POST /api/tasks` requests served while the clock reads `later`. -/
def twoPosts : List Request :=
  [ Request.createTask later later (decoded "A" false),
    Request.createTask later later (decoded "B" true) ]

/-- The slice after `twoPosts` has been served on the seeded slice. -/
def collided : List Task := serve decimal seeded twoPosts

/-- A `DELETE` that removes the first seed, the same `DELETE` again, a `POST`
and a `PUT`. -/
def mixed : List Request :=
  [ Request.deleteTask "1", Request.deleteTask "1",
    Request.createTask later later (decoded "X" true),
    Request.updateTask "2" (decoded "Learn React!" true) ]

/-- The record stored by the first request of `twoPosts`. -/
def firstPosted : Task :=
  { ID := "360000000000005", Title := "A", Completed := false, CreatedAt := later }

/-- The record stored by the second request of `twoPosts`. -/
def secondPosted : Task :=
  { ID := "360000000000005", Title := "B", Completed := true, CreatedAt := later }

/-! ## The scan -/

theorem rangeTasks_none (id : String) (tasks : List Task) (index : Nat)
    (h : ∀ u ∈ tasks, u.ID ≠ id) : rangeTasks id index tasks = none := by
  induction tasks generalizing index with
  | nil => rfl
  | cons item rest ih =>
    have h1 : item.ID ≠ id := h item (List.mem_cons_self _ _)
    simp only [rangeTasks, if_neg h1]
    exact ih (index + 1) (fun u hu => h u (List.mem_cons_of_mem _ hu))

theorem rangeTasks_first (id : String) (pre post : List Task) (t : Task) (index : Nat)
    (hpre : ∀ u ∈ pre, u.ID ≠ id) (ht : t.ID = id) :
    rangeTasks id index (pre ++ t :: post) = some (index + pre.length, t) := by
  induction pre generalizing index with
  | nil => simp [rangeTasks, ht]
  | cons item rest ih =>
    have h1 : item.ID ≠ id := hpre item (List.mem_cons_self _ _)
    have hrest := ih (index + 1) (fun u hu => hpre u (List.mem_cons_of_mem _ hu))
    have hlen : index + 1 + rest.length = index + (rest.length + 1) := by omega
    rw [List.cons_append, rangeTasks, if_neg h1, hrest, List.length_cons, hlen]

/-- Every slice holding a task with the id splits at the first such task. -/
theorem exists_first_match (id : String) (tasks : List Task)
    (h : ∃ u ∈ tasks, u.ID = id) :
    ∃ pre t post, tasks = pre ++ t :: post ∧ t.ID = id ∧ ∀ u ∈ pre, u.ID ≠ id := by
  induction tasks with
  | nil => obtain ⟨u, hu, _⟩ := h; cases hu
  | cons item rest ih =>
    by_cases h1 : item.ID = id
    · exact ⟨[], item, rest, rfl, h1, fun u hu => by cases hu⟩
    · obtain ⟨u, hu, hid⟩ := h
      have hrest : ∃ u ∈ rest, u.ID = id := by
        rcases List.mem_cons.mp hu with rfl | hu
        · exact absurd hid h1
        · exact ⟨u, hu, hid⟩
      obtain ⟨pre, t, post, hs, ht, hpre⟩ := ih hrest
      refine ⟨item :: pre, t, post, by rw [hs]; rfl, ht, ?_⟩
      intro v hv
      rcases List.mem_cons.mp hv with rfl | hv
      · exact h1
      · exact hpre v hv


theorem rangeTasks_eq_none_iff (id : String) (tasks : List Task) (index : Nat) :
    rangeTasks id index tasks = none ↔ ∀ u ∈ tasks, u.ID ≠ id := by
  constructor
  · intro hnone u hu hid
    obtain ⟨pre, t, post, hs, ht, hpre⟩ := exists_first_match id tasks ⟨u, hu, hid⟩
    rw [hs, rangeTasks_first id pre post t index hpre ht] at hnone
    cases hnone
  · exact rangeTasks_none id tasks index

/-! ## Slices -/

theorem set_at_split (pre post : List Task) (t r : Task) :
    (pre ++ t :: post).set (0 + pre.length) r = pre ++ r :: post := by
  induction pre with
  | nil => rfl
  | cons item rest ih =>
    rw [Nat.zero_add] at ih
    simp only [List.cons_append, List.length_cons, Nat.zero_add, List.set_cons_succ, ih]

theorem take_at_split (pre post : List Task) (t : Task) :
    (pre ++ t :: post).take (0 + pre.length) = pre := by
  induction pre with
  | nil => rfl
  | cons item rest ih =>
    rw [Nat.zero_add] at ih
    simp only [List.cons_append, List.length_cons, Nat.zero_add, List.take_succ_cons, ih]

theorem drop_after_split (pre post : List Task) (t : Task) :
    (pre ++ t :: post).drop (0 + pre.length + 1) = post := by
  induction pre with
  | nil => rfl
  | cons item rest ih =>
    rw [Nat.zero_add] at ih
    simp only [List.cons_append, List.length_cons, Nat.zero_add, List.drop_succ_cons, ih]

/-! ## The handlers at a split slice -/

theorem getTask_at_split (id : String) (pre post : List Task) (t : Task)
    (hpre : ∀ u ∈ pre, u.ID ≠ id) (ht : t.ID = id) :
    getTask (pre ++ t :: post) id = respond (Body.task t) := by
  unfold getTask
  rw [rangeTasks_first id pre post t 0 hpre ht]

theorem getTask_no_match (id : String) (tasks : List Task)
    (h : ∀ u ∈ tasks, u.ID ≠ id) : getTask tasks id = notFound := by
  unfold getTask
  rw [rangeTasks_none id tasks 0 h]

theorem respond_ne_notFound (body : Body) : respond body ≠ notFound := by
  intro h
  have hstatus : (respond body).status = notFound.status := by rw [h]
  have hcodes : StatusOK ≠ StatusNotFound := by decide
  exact hcodes hstatus

theorem getTask_eq_notFound_iff (id : String) (tasks : List Task) :
    getTask tasks id = notFound ↔ ∀ u ∈ tasks, u.ID ≠ id := by
  constructor
  · intro hnf u hu hid
    obtain ⟨pre, t, post, hs, ht, hpre⟩ := exists_first_match id tasks ⟨u, hu, hid⟩
    rw [hs, getTask_at_split id pre post t hpre ht] at hnf
    exact respond_ne_notFound _ hnf
  · exact getTask_no_match id tasks

theorem updateTask_at_split (id : String) (pre post : List Task) (t task : Task)
    (hpre : ∀ u ∈ pre, u.ID ≠ id) (ht : t.ID = id) :
    updateTask (pre ++ t :: post) id task =
      (pre ++ { ID := id, Title := task.Title, Completed := task.Completed,
                CreatedAt := t.CreatedAt } :: post,
       respond (Body.task { ID := id, Title := task.Title, Completed := task.Completed,
                            CreatedAt := t.CreatedAt })) := by
  unfold updateTask
  rw [rangeTasks_first id pre post t 0 hpre ht]
  simp only [set_at_split]

theorem updateTask_no_match (id : String) (tasks : List Task) (task : Task)
    (h : ∀ u ∈ tasks, u.ID ≠ id) : updateTask tasks id task = (tasks, notFound) := by
  unfold updateTask
  rw [rangeTasks_none id tasks 0 h]

theorem deleteTask_at_split (id : String) (pre post : List Task) (t : Task)
    (hpre : ∀ u ∈ pre, u.ID ≠ id) (ht : t.ID = id) :
    deleteTask (pre ++ t :: post) id = (pre ++ post, deleted) := by
  unfold deleteTask
  rw [rangeTasks_first id pre post t 0 hpre ht]
  simp only [take_at_split, drop_after_split]

theorem deleteTask_no_match (id : String) (tasks : List Task)
    (h : ∀ u ∈ tasks, u.ID ≠ id) : deleteTask tasks id = (tasks, deleted) := by
  unfold deleteTask
  rw [rangeTasks_none id tasks 0 h]

theorem deleteTask_response (id : String) (tasks : List Task) :
    (deleteTask tasks id).2 = deleted := by
  unfold deleteTask
  cases rangeTasks id 0 tasks with
  | none => rfl
  | some found => rfl

/-! ## C1: `getTask` -/

/-- C1, as stated, fails: after two `POST` requests served at the same clock
reading the slice holds two tasks with one id, and `getTask` on the id of the
second returns the first, a different record. -/
theorem getTask_duplicate_id_counterexample :
    collided = seeded ++ [firstPosted, secondPosted] ∧
    secondPosted ∈ collided ∧
    getTask collided secondPosted.ID = respond (Body.task firstPosted) ∧
    getTask collided secondPosted.ID ≠ respond (Body.task secondPosted) := by
  decide

/-- C1, amended: `getTask` answers with status 200 and the first stored task
whose id is the one asked for; so it returns a stored task `t` for `t.ID` when
no task stored before `t` has the same id, which is every stored task when the
ids are pairwise distinct.  For an id that no stored task has it answers with
status 404 and the body `{"error": "Task not found"}`. -/
theorem getTask_first_match (s : List Task) (id : String) :
    (∀ pre t post, s = pre ++ t :: post → t.ID = id → (∀ u ∈ pre, u.ID ≠ id) →
      getTask s id = { contentType := "application/json", status := 200, body := Body.task t }) ∧
    ((s.map Task.ID).Nodup → ∀ t ∈ s,
      getTask s t.ID = { contentType := "application/json", status := 200, body := Body.task t }) ∧
    ((∀ u ∈ s, u.ID ≠ id) →
      getTask s id = { contentType := "application/json", status := 404,
                       body := Body.object [("error", "Task not found")] }) := by
  refine ⟨?_, ?_, ?_⟩
  · intro pre t post hs ht hpre
    rw [hs]
    exact getTask_at_split id pre post t hpre ht
  · intro hnodup t ht
    obtain ⟨pre, post, hs⟩ := List.append_of_mem ht
    subst hs
    rw [List.map_append, List.map_cons] at hnodup
    have hdisj := (List.nodup_append.mp hnodup).2.2
    have hpre : ∀ u ∈ pre, u.ID ≠ t.ID := by
      intro u hu hid
      have h1 : u.ID ∈ pre.map Task.ID := List.mem_map_of_mem _ hu
      have h2 : u.ID ∈ t.ID :: post.map Task.ID := by
        rw [hid]
        exact List.mem_cons_self _ _
      exact hdisj h1 h2
    exact getTask_at_split t.ID pre post t hpre rfl
  · intro hnone
    exact getTask_no_match id s hnone

/-- C1 on the seeded slice: `GET /api/tasks/2` returns the second seed and
`GET /api/tasks/999` is not found. -/
theorem getTask_first_match_witness :
    getTask seeded "2" = respond (Body.task
      { ID := "2", Title := "Learn React", Completed := false, CreatedAt := 52 * Hour }) ∧
    getTask seeded "999" = notFound :=
  ⟨(getTask_first_match seeded "2").2.1 (by decide)
     { ID := "2", Title := "Learn React", Completed := false, CreatedAt := 52 * Hour }
     (by decide),
   (getTask_first_match seeded "999").2.2 (by decide)⟩

/-! ## C2: `createTask` followed by `getTask` -/

/-- C2, as stated, fails: when the clock still reads what it read at an earlier
`POST`, the record returned by `createTask` has the id of the earlier record,
and `getTask` on that id returns the earlier record. -/
theorem createTask_then_getTask_counterexample :
    serve decimal seeded [Request.createTask later later (decoded "A" false)]
      = seeded ++ [firstPosted] ∧
    (createTask decimal later later (seeded ++ [firstPosted]) (decoded "B" true)).2
      = respond (Body.task secondPosted) ∧
    getTask (createTask decimal later later (seeded ++ [firstPosted]) (decoded "B" true)).1
      secondPosted.ID = respond (Body.task firstPosted) ∧
    respond (Body.task firstPosted) ≠ respond (Body.task secondPosted) := by
  decide

/-- C2, amended: when the id that `createTask` assigns (the rendering of the
clock) is the id of no task already stored, `createTask` returns a record and
a `getTask` on the id of that record, served next, returns the same record with
status 200. -/
theorem createTask_then_getTask (timeString : Time → String) (now1 now2 : Time)
    (s : List Task) (p : Task) (hfresh : ∀ u ∈ s, u.ID ≠ timeString now1) :
    ∃ r : Task,
      (createTask timeString now1 now2 s p).2 = respond (Body.task r) ∧
      getTask (createTask timeString now1 now2 s p).1 r.ID = respond (Body.task r) ∧
      (respond (Body.task r)).status = 200 :=
  ⟨{ ID := timeString now1, Title := p.Title, Completed := p.Completed, CreatedAt := now2 },
   rfl, getTask_at_split (timeString now1) s [] _ hfresh rfl, rfl⟩

/-- C2 on the seeded slice: a `POST` with title "X" and completed true. -/
theorem createTask_then_getTask_witness :
    (∀ u ∈ seeded, u.ID ≠ decimal later) ∧
    ∃ r : Task,
      (createTask decimal later later seeded (decoded "X" true)).2 = respond (Body.task r) ∧
      getTask (createTask decimal later later seeded (decoded "X" true)).1 r.ID
        = respond (Body.task r) ∧
      (respond (Body.task r)).status = 200 :=
  ⟨by decide, createTask_then_getTask decimal later later seeded (decoded "X" true) (by decide)⟩

/-! ## C3: `updateTask` on a stored id -/

/-- C3: when a task with id `i` is stored, the slice splits at the first such
task `t`; `updateTask` answers with status 200 and the record `r` made of `i`,
the title and the completed flag of the payload and the `CreatedAt` of `t`
(whatever the payload holds for id and `CreatedAt`), and leaves behind the
slice with `r` in the place of `t`: same length, `r` at the index of `t`, every
other index unchanged. -/
theorem updateTask_found (s : List Task) (i : String) (p : Task)
    (hstored : ∃ u ∈ s, u.ID = i) :
    ∃ pre t post, s = pre ++ t :: post ∧ t.ID = i ∧ (∀ u ∈ pre, u.ID ≠ i) ∧
      (updateTask s i p).2 =
        { contentType := "application/json", status := 200,
          body := Body.task { ID := i, Title := p.Title, Completed := p.Completed,
                              CreatedAt := t.CreatedAt } } ∧
      (updateTask s i p).1 =
        pre ++ { ID := i, Title := p.Title, Completed := p.Completed,
                 CreatedAt := t.CreatedAt } :: post ∧
      (updateTask s i p).1.length = s.length ∧
      (updateTask s i p).1[pre.length]? =
        some { ID := i, Title := p.Title, Completed := p.Completed,
               CreatedAt := t.CreatedAt } ∧
      (∀ j, j ≠ pre.length → (updateTask s i p).1[j]? = s[j]?) := by
  obtain ⟨pre, t, post, hs, ht, hpre⟩ := exists_first_match i s hstored
  refine ⟨pre, t, post, hs, ht, hpre, ?_⟩
  have hupd := updateTask_at_split i pre post t p hpre ht
  rw [← hs] at hupd
  rw [hupd]
  refine ⟨rfl, rfl, ?_, ?_, ?_⟩
  · rw [hs]
    simp only [List.length_append, List.length_cons]
  · rw [List.getElem?_append_right (Nat.le_refl _), Nat.sub_self, List.getElem?_cons_zero]
  · intro j hj
    rw [hs]
    rcases Nat.lt_or_gt_of_ne hj with hlt | hgt
    · rw [List.getElem?_append_left hlt, List.getElem?_append_left hlt]
    · have hle : pre.length ≤ j := Nat.le_of_lt hgt
      rw [List.getElem?_append_right hle, List.getElem?_append_right hle]
      obtain ⟨k, hk⟩ : ∃ k, j - pre.length = k + 1 := ⟨j - pre.length - 1, by omega⟩
      rw [hk, List.getElem?_cons_succ, List.getElem?_cons_succ]

/-- C3 on the seeded slice: `PUT /api/tasks/1` with title "Learn Go!" and
completed true. -/
theorem updateTask_found_witness :
    (∃ u ∈ seeded, u.ID = "1") ∧
    (∃ pre t post, seeded = pre ++ t :: post ∧ t.ID = "1" ∧ (∀ u ∈ pre, u.ID ≠ "1") ∧
      (updateTask seeded "1" (decoded "Learn Go!" true)).2 =
        { contentType := "application/json", status := 200,
          body := Body.task { ID := "1", Title := (decoded "Learn Go!" true).Title,
                              Completed := (decoded "Learn Go!" true).Completed,
                              CreatedAt := t.CreatedAt } } ∧
      (updateTask seeded "1" (decoded "Learn Go!" true)).1 =
        pre ++ { ID := "1", Title := (decoded "Learn Go!" true).Title,
                 Completed := (decoded "Learn Go!" true).Completed,
                 CreatedAt := t.CreatedAt } :: post ∧
      (updateTask seeded "1" (decoded "Learn Go!" true)).1.length = seeded.length ∧
      (updateTask seeded "1" (decoded "Learn Go!" true)).1[pre.length]? =
        some { ID := "1", Title := (decoded "Learn Go!" true).Title,
               Completed := (decoded "Learn Go!" true).Completed,
               CreatedAt := t.CreatedAt } ∧
      (∀ j, j ≠ pre.length →
        (updateTask seeded "1" (decoded "Learn Go!" true)).1[j]? = seeded[j]?)) ∧
    updateTask seeded "1" (decoded "Learn Go!" true) =
      ([ { ID := "1", Title := "Learn Go!", Completed := true, CreatedAt := 28 * Hour },
         { ID := "2", Title := "Learn React", Completed := false, CreatedAt := 52 * Hour },
         { ID := "3", Title := "Build a full-stack app", Completed := false,
           CreatedAt := 76 * Hour } ],
       respond (Body.task
         { ID := "1", Title := "Learn Go!", Completed := true, CreatedAt := 28 * Hour })) :=
  ⟨by decide, updateTask_found seeded "1" (decoded "Learn Go!" true) (by decide), by decide⟩

/-! ## C4: `deleteTask` twice -/

theorem count_ids_eq_zero_iff (id : String) (tasks : List Task) :
    (tasks.map Task.ID).count id = 0 ↔ ∀ u ∈ tasks, u.ID ≠ id := by
  rw [List.count_eq_zero]
  constructor
  · intro hnot u hu hid
    exact hnot (hid ▸ List.mem_map_of_mem _ hu)
  · intro hne hmem
    obtain ⟨u, hu, hid⟩ := List.mem_map.mp hmem
    exact hne u hu hid

/-- C4, as stated, fails: on a slice with two tasks of one id, `deleteTask`
removes the first of them only, and the `getTask` served next finds the
second. -/
theorem deleteTask_duplicate_id_counterexample :
    collided = seeded ++ [firstPosted, secondPosted] ∧
    deleteTask collided "360000000000005" = (seeded ++ [secondPosted], deleted) ∧
    getTask (deleteTask collided "360000000000005").1 "360000000000005"
      = respond (Body.task secondPosted) ∧
    getTask (deleteTask collided "360000000000005").1 "360000000000005" ≠ notFound := by
  decide

/-- C4, amended: `deleteTask` served twice in a row for one id answers both
times with status 200 and the body `{"message": "Task deleted successfully"}`;
the `getTask` served after the first of them for that id is not found exactly
when at most one stored task had the id, which is so for every id when the
stored ids are pairwise distinct. -/
theorem deleteTask_twice (s : List Task) (id : String) :
    (deleteTask s id).2 =
      { contentType := "application/json", status := 200,
        body := Body.object [("message", "Task deleted successfully")] } ∧
    (deleteTask (deleteTask s id).1 id).2 = (deleteTask s id).2 ∧
    (getTask (deleteTask s id).1 id = notFound ↔ (s.map Task.ID).count id ≤ 1) ∧
    ((s.map Task.ID).Nodup → getTask (deleteTask s id).1 id = notFound) := by
  have hiff : getTask (deleteTask s id).1 id = notFound ↔ (s.map Task.ID).count id ≤ 1 := by
    rw [getTask_eq_notFound_iff]
    by_cases hstored : ∃ u ∈ s, u.ID = id
    · obtain ⟨pre, t, post, hs, ht, hpre⟩ := exists_first_match id s hstored
      subst hs
      rw [deleteTask_at_split id pre post t hpre ht]
      have hcpre : (pre.map Task.ID).count id = 0 := (count_ids_eq_zero_iff id pre).mpr hpre
      have hcount : ((pre ++ t :: post).map Task.ID).count id
          = (post.map Task.ID).count id + 1 := by
        rw [List.map_append, List.count_append, hcpre, List.map_cons, ht,
          List.count_cons_self, Nat.zero_add]
      rw [hcount]
      constructor
      · intro hall
        have hpost : ∀ u ∈ post, u.ID ≠ id :=
          fun u hu => hall u (List.mem_append_right _ hu)
        rw [(count_ids_eq_zero_iff id post).mpr hpost]
      · intro hle u hu
        have hzero : (post.map Task.ID).count id = 0 := by omega
        rcases List.mem_append.mp hu with hin | hin
        · exact hpre u hin
        · exact (count_ids_eq_zero_iff id post).mp hzero u hin
    · have hnone : ∀ u ∈ s, u.ID ≠ id := fun u hu hid => hstored ⟨u, hu, hid⟩
      rw [deleteTask_no_match id s hnone, (count_ids_eq_zero_iff id s).mpr hnone]
      exact ⟨fun _ => Nat.zero_le _, fun _ => hnone⟩
  refine ⟨deleteTask_response id s, ?_, hiff, ?_⟩
  · rw [deleteTask_response, deleteTask_response]
  · intro hnodup
    exact hiff.mpr (List.nodup_iff_count_le_one.mp hnodup id)

/-- C4 on the seeded slice: `DELETE /api/tasks/2` twice. -/
theorem deleteTask_twice_witness :
    (deleteTask seeded "2").2 = deleted ∧
    (deleteTask (deleteTask seeded "2").1 "2").2 = (deleteTask seeded "2").2 ∧
    getTask (deleteTask seeded "2").1 "2" = notFound :=
  ⟨(deleteTask_twice seeded "2").1, (deleteTask_twice seeded "2").2.1,
   (deleteTask_twice seeded "2").2.2.2 (by decide)⟩

/-! ## C5: the length of the slice -/

theorem updateTask_length (s : List Task) (id : String) (p : Task) :
    (updateTask s id p).1.length = s.length := by
  unfold updateTask
  cases rangeTasks id 0 s with
  | none => rfl
  | some found => simp only [List.length_set]

theorem deleteTask_length_of_stored (s : List Task) (id : String)
    (hstored : id ∈ s.map Task.ID) : (deleteTask s id).1.length + 1 = s.length := by
  obtain ⟨u, hu, hid⟩ := List.mem_map.mp hstored
  obtain ⟨pre, t, post, hs, ht, hpre⟩ := exists_first_match id s ⟨u, hu, hid⟩
  subst hs
  rw [deleteTask_at_split id pre post t hpre ht]
  simp only [List.length_append, List.length_cons]
  omega

theorem deleteTask_of_not_stored (s : List Task) (id : String)
    (hnot : id ∉ s.map Task.ID) : (deleteTask s id).1 = s := by
  have hnone : ∀ u ∈ s, u.ID ≠ id :=
    fun u hu hid => hnot (hid ▸ List.mem_map_of_mem _ hu)
  rw [deleteTask_no_match id s hnone]

theorem serve_length (timeString : Time → String) (reqs : List Request) (s : List Task) :
    (serve timeString s reqs).length + matchedDeletes timeString s reqs
      = s.length + creates reqs := by
  induction reqs generalizing s with
  | nil => rfl
  | cons r rs ih =>
    have hrest := ih (handle timeString s r).1
    cases r with
    | getTasks =>
      simp only [serve, matchedDeletes, creates, handle] at hrest ⊢
      omega
    | getTask id =>
      simp only [serve, matchedDeletes, creates, handle] at hrest ⊢
      omega
    | createTask now1 now2 task =>
      simp only [serve, matchedDeletes, creates, handle, createTask, List.length_append,
        List.length_singleton] at hrest ⊢
      omega
    | updateTask id task =>
      simp only [serve, matchedDeletes, creates, handle, updateTask_length] at hrest ⊢
      omega
    | deleteTask id =>
      simp only [serve, matchedDeletes, creates, handle] at hrest ⊢
      by_cases hstored : id ∈ s.map Task.ID
      · have hlen := deleteTask_length_of_stored s id hstored
        rw [if_pos hstored]
        omega
      · rw [deleteTask_of_not_stored s id hstored] at hrest ⊢
        rw [if_neg hstored]
        omega

theorem matchedDeletes_le (timeString : Time → String) (reqs : List Request)
    (s : List Task) : matchedDeletes timeString s reqs ≤ deletes reqs := by
  induction reqs generalizing s with
  | nil => exact Nat.le_refl _
  | cons r rs ih =>
    have hrest := ih (handle timeString s r).1
    cases r with
    | deleteTask id =>
      simp only [matchedDeletes, deletes] at hrest ⊢
      split <;> omega
    | getTasks => simpa only [matchedDeletes, deletes, Nat.add_zero] using hrest
    | getTask id => simpa only [matchedDeletes, deletes, Nat.add_zero] using hrest
    | createTask now1 now2 task =>
      simpa only [matchedDeletes, deletes, Nat.add_zero] using hrest
    | updateTask id task => simpa only [matchedDeletes, deletes, Nat.add_zero] using hrest

/-- C5, as stated, fails: a `DELETE` for an id that no task has leaves the
seeded slice as it is, so `getTasks` lists three tasks, while the seed count
plus the creates minus the deletes is two. -/
theorem list_length_counterexample :
    serve decimal seeded [Request.deleteTask "999"] = seeded ∧
    getTasks (serve decimal seeded [Request.deleteTask "999"])
      = respond (Body.taskList seeded) ∧
    ((serve decimal seeded [Request.deleteTask "999"]).length : Int) = 3 ∧
    (3 : Int) + creates [Request.deleteTask "999"] - deletes [Request.deleteTask "999"] = 2 := by
  decide

/-- C5, amended: after any sequence of requests served one after another on
the freshly seeded slice, `getTasks` lists the current slice, whose length is
3 plus the number of creates minus the number of those deletes whose id was the
id of a stored task when they were served; a delete for an id that no task has
removes nothing, so the length is at least 3 plus creates minus deletes. -/
theorem list_length (timeString : Time → String) (now1 now2 now3 : Time)
    (reqs : List Request) :
    getTasks (serve timeString (tasks now1 now2 now3) reqs)
      = { contentType := "application/json", status := 200,
          body := Body.taskList (serve timeString (tasks now1 now2 now3) reqs) } ∧
    ((serve timeString (tasks now1 now2 now3) reqs).length : Int)
      = 3 + creates reqs - matchedDeletes timeString (tasks now1 now2 now3) reqs ∧
    matchedDeletes timeString (tasks now1 now2 now3) reqs ≤ deletes reqs ∧
    (3 : Int) + creates reqs - deletes reqs
      ≤ (serve timeString (tasks now1 now2 now3) reqs).length := by
  have hlen := serve_length timeString reqs (tasks now1 now2 now3)
  have hle := matchedDeletes_le timeString reqs (tasks now1 now2 now3)
  have hseed : (tasks now1 now2 now3).length = 3 := rfl
  rw [hseed] at hlen
  refine ⟨rfl, ?_, hle, ?_⟩ <;> omega

/-- C5 on the sequence `mixed`: two deletes, of which only the first removes a
task, and one create leave three tasks. -/
theorem list_length_witness :
    ((serve decimal seeded mixed).length : Int)
      = 3 + creates mixed - matchedDeletes decimal seeded mixed ∧
    creates mixed = 1 ∧ deletes mixed = 2 ∧ matchedDeletes decimal seeded mixed = 1 ∧
    (serve decimal seeded mixed).length = 3 :=
  ⟨(list_length decimal startup startup startup mixed).2.1, by decide, by decide, by decide,
   by decide⟩

/-! ## C6: `deleteTask` on an id that is not stored -/

/-- C6: for an id that no stored task has, `deleteTask` answers with status
200 and the body `{"message": "Task deleted successfully"}` and leaves the
slice as it was. -/
theorem deleteTask_absent (s : List Task) (id : String) (habsent : ∀ u ∈ s, u.ID ≠ id) :
    deleteTask s id =
      (s, { contentType := "application/json", status := 200,
            body := Body.object [("message", "Task deleted successfully")] }) :=
  deleteTask_no_match id s habsent

/-- C6 on the seeded slice: `DELETE /api/tasks/999`. -/
theorem deleteTask_absent_witness :
    (∀ u ∈ seeded, u.ID ≠ "999") ∧
    deleteTask seeded "999" =
      (seeded, { contentType := "application/json", status := 200,
                 body := Body.object [("message", "Task deleted successfully")] }) :=
  ⟨by decide, deleteTask_absent seeded "999" (by decide)⟩

/-! ## C7: not found -/

/-- C7: `updateTask` answers with the not-found response (status 404, body
`{"error": "Task not found"}`) if and only if no stored task has the id, and
then it leaves the slice as it was; every response of `updateTask` and of
`getTask` is either that one or a task with status 200. -/
theorem updateTask_notFound_iff (s : List Task) (id : String) (p : Task) :
    ((updateTask s id p).2 =
        { contentType := "application/json", status := 404,
          body := Body.object [("error", "Task not found")] }
      ↔ ∀ u ∈ s, u.ID ≠ id) ∧
    ((∀ u ∈ s, u.ID ≠ id) → (updateTask s id p).1 = s) ∧
    ((updateTask s id p).2 = notFound ∨
      ∃ r, (updateTask s id p).2
        = { contentType := "application/json", status := 200, body := Body.task r }) ∧
    (getTask s id = notFound ∨
      ∃ r, getTask s id
        = { contentType := "application/json", status := 200, body := Body.task r }) := by
  by_cases hstored : ∃ u ∈ s, u.ID = id
  · obtain ⟨pre, t, post, hs, ht, hpre⟩ := exists_first_match id s hstored
    have hsome : ¬ ∀ u ∈ s, u.ID ≠ id := by
      intro hall
      obtain ⟨u, hu, hid⟩ := hstored
      exact hall u hu hid
    subst hs
    rw [updateTask_at_split id pre post t p hpre ht, getTask_at_split id pre post t hpre ht]
    refine ⟨⟨fun h => absurd h (respond_ne_notFound _), fun h => absurd h hsome⟩,
      fun h => absurd h hsome, Or.inr ⟨_, rfl⟩, Or.inr ⟨_, rfl⟩⟩
  · have hnone : ∀ u ∈ s, u.ID ≠ id := fun u hu hid => hstored ⟨u, hu, hid⟩
    rw [updateTask_no_match id s p hnone, getTask_no_match id s hnone]
    exact ⟨⟨fun _ => hnone, fun _ => rfl⟩, fun _ => rfl, Or.inl rfl, Or.inl rfl⟩

/-- C7 on the seeded slice: `PUT /api/tasks/999` is not found and changes
nothing. -/
theorem updateTask_notFound_iff_witness :
    (updateTask seeded "999" (decoded "X" true)).2 = notFound ∧
    (updateTask seeded "999" (decoded "X" true)).1 = seeded :=
  ⟨(updateTask_notFound_iff seeded "999" (decoded "X" true)).1.mpr (by decide),
   (updateTask_notFound_iff seeded "999" (decoded "X" true)).2.1 (by decide)⟩

/-! ## C8: `createTask` -/

/-- C8: whatever the slice, the decoded payload and the clock, `createTask`
answers with status 200 and the record made of the title and the completed flag
of the payload, the rendering of the clock as id and the clock as `CreatedAt`
(the clock is read once for each), and leaves behind the old slice with that
record appended: one element longer, every old index unchanged, the record
last. -/
theorem createTask_appends (timeString : Time → String) (now1 now2 : Time)
    (s : List Task) (p : Task) :
    createTask timeString now1 now2 s p =
      (s ++ [{ ID := timeString now1, Title := p.Title, Completed := p.Completed,
               CreatedAt := now2 }],
       { contentType := "application/json", status := 200,
         body := Body.task { ID := timeString now1, Title := p.Title,
                             Completed := p.Completed, CreatedAt := now2 } }) ∧
    (createTask timeString now1 now2 s p).1.length = s.length + 1 ∧
    (createTask timeString now1 now2 s p).1.take s.length = s ∧
    (createTask timeString now1 now2 s p).1[s.length]? =
      some { ID := timeString now1, Title := p.Title, Completed := p.Completed,
             CreatedAt := now2 } := by
  refine ⟨rfl, ?_, ?_, ?_⟩
  · simp only [createTask, List.length_append, List.length_singleton]
  · simp only [createTask, List.take_left]
  · simp only [createTask]
    rw [List.getElem?_append_right (Nat.le_refl _), Nat.sub_self, List.getElem?_cons_zero]

/-! ## C9: `deleteTask` on a stored id -/

/-- C9: when a task with the id is stored, the slice splits at the first such
task, and `deleteTask` leaves behind what was before it followed by what was
after it, in the same order; the length drops by one and every other element,
a later task with the same id included, is kept. -/
theorem deleteTask_found (s : List Task) (id : String) (hstored : ∃ u ∈ s, u.ID = id) :
    ∃ pre t post, s = pre ++ t :: post ∧ t.ID = id ∧ (∀ u ∈ pre, u.ID ≠ id) ∧
      (deleteTask s id).1 = pre ++ post ∧
      (deleteTask s id).1.length + 1 = s.length := by
  obtain ⟨pre, t, post, hs, ht, hpre⟩ := exists_first_match id s hstored
  refine ⟨pre, t, post, hs, ht, hpre, ?_⟩
  subst hs
  rw [deleteTask_at_split id pre post t hpre ht]
  refine ⟨rfl, ?_⟩
  simp only [List.length_append, List.length_cons]
  omega

/-- C9 on a slice with two tasks of one id: the first of them goes, the second
stays. -/
theorem deleteTask_found_witness :
    (∃ u ∈ collided, u.ID = "360000000000005") ∧
    (∃ pre t post, collided = pre ++ t :: post ∧ t.ID = "360000000000005" ∧
      (∀ u ∈ pre, u.ID ≠ "360000000000005") ∧
      (deleteTask collided "360000000000005").1 = pre ++ post ∧
      (deleteTask collided "360000000000005").1.length + 1 = collided.length) ∧
    (deleteTask collided "360000000000005").1 = seeded ++ [secondPosted] :=
  ⟨by decide, deleteTask_found collided "360000000000005" (by decide), by decide⟩

/-! ## C10: pairwise distinct ids -/

theorem updateTask_ids (s : List Task) (id : String) (p : Task) :
    (updateTask s id p).1.map Task.ID = s.map Task.ID := by
  by_cases hstored : ∃ u ∈ s, u.ID = id
  · obtain ⟨pre, t, post, hs, ht, hpre⟩ := exists_first_match id s hstored
    subst hs
    rw [updateTask_at_split id pre post t p hpre ht]
    simp only [List.map_append, List.map_cons, ht]
  · have hnone : ∀ u ∈ s, u.ID ≠ id := fun u hu hid => hstored ⟨u, hu, hid⟩
    rw [updateTask_no_match id s p hnone]

theorem deleteTask_sublist (s : List Task) (id : String) :
    ((deleteTask s id).1.map Task.ID).Sublist (s.map Task.ID) := by
  by_cases hstored : ∃ u ∈ s, u.ID = id
  · obtain ⟨pre, t, post, hs, ht, hpre⟩ := exists_first_match id s hstored
    subst hs
    rw [deleteTask_at_split id pre post t hpre ht]
    exact List.Sublist.map _
      (List.Sublist.append (List.Sublist.refl pre) (List.sublist_cons_self t post))
  · have hnone : ∀ u ∈ s, u.ID ≠ id := fun u hu hid => hstored ⟨u, hu, hid⟩
    rw [deleteTask_no_match id s hnone]

/-- C10: when the stored ids are pairwise distinct, `updateTask` leaves the
sequence of ids as it was and so pairwise distinct, `deleteTask` leaves the ids
pairwise distinct, and `createTask` leaves them pairwise distinct if and only if
the id it assigns is the id of no stored task; the ids of the seeded slice are
"1", "2", "3", pairwise distinct. -/
theorem ids_nodup_preserved (timeString : Time → String) (now1 now2 : Time)
    (s : List Task) (id : String) (p : Task) (hnodup : (s.map Task.ID).Nodup) :
    (updateTask s id p).1.map Task.ID = s.map Task.ID ∧
    ((updateTask s id p).1.map Task.ID).Nodup ∧
    ((deleteTask s id).1.map Task.ID).Nodup ∧
    (((createTask timeString now1 now2 s p).1.map Task.ID).Nodup
      ↔ ∀ u ∈ s, u.ID ≠ timeString now1) ∧
    (∀ start1 start2 start3 : Time,
      (tasks start1 start2 start3).map Task.ID = ["1", "2", "3"] ∧
      ((tasks start1 start2 start3).map Task.ID).Nodup) := by
  refine ⟨updateTask_ids s id p, ?_, ?_, ?_, ?_⟩
  · rw [updateTask_ids s id p]
    exact hnodup
  · exact List.Nodup.sublist (deleteTask_sublist s id) hnodup
  · have hids : (createTask timeString now1 now2 s p).1.map Task.ID
        = s.map Task.ID ++ [timeString now1] := by
      simp only [createTask, List.map_append, List.map_cons, List.map_nil]
    rw [hids, List.nodup_append]
    constructor
    · rintro ⟨_, _, hdisj⟩ u hu hid
      exact hdisj (List.mem_map_of_mem _ hu) (hid ▸ List.mem_singleton_self _)
    · intro hfresh
      refine ⟨hnodup, List.nodup_singleton _, ?_⟩
      intro x hx hx1
      obtain ⟨u, hu, hid⟩ := List.mem_map.mp hx
      rw [List.mem_singleton] at hx1
      exact hfresh u hu (hid.trans hx1)
  · intro start1 start2 start3
    have hseed : (["1", "2", "3"] : List String).Nodup := by decide
    exact ⟨rfl, hseed⟩

/-- C10 on the seeded slice, with a `PUT` and a `DELETE` for id "2" and a
`POST` served at `later`. -/
theorem ids_nodup_preserved_witness :
    (seeded.map Task.ID).Nodup ∧
    (updateTask seeded "2" (decoded "X" true)).1.map Task.ID = seeded.map Task.ID ∧
    ((deleteTask seeded "2").1.map Task.ID).Nodup ∧
    ((createTask decimal later later seeded (decoded "X" true)).1.map Task.ID).Nodup :=
  ⟨by decide,
   (ids_nodup_preserved decimal later later seeded "2" (decoded "X" true) (by decide)).1,
   (ids_nodup_preserved decimal later later seeded "2" (decoded "X" true) (by decide)).2.2.1,
   (ids_nodup_preserved decimal later later seeded "2" (decoded "X" true)
     (by decide)).2.2.2.1.mpr (by decide)⟩

end TaskStore
